import Mathlib

/-!
Verification of `auto_cover_art.py`, a single-pass pipeline that checks an
audio file for embedded cover art, fingerprints it with `fpcalc`, looks the
fingerprint up on AcoustID, resolves a cover-art URL per candidate release
via the Cover Art Archive, downloads the image and embeds it with mutagen.

The effectful boundary (subprocess results, HTTP responses, file tag state)
is made explicit: every external call's outcome is a value of an inductive
type supplied by an environment, and each Python function is embedded as a
pure Lean function from those outcomes to its return value together with the
list of log events it emits.  `process_file` additionally records every
external call it makes in an event trace, so that claims about "no network
calls" and about candidate iteration order are statements about the trace.
-/

namespace ACA

/-- Python truthiness of an optional string: `None` and `""` are falsy. -/
def truthyS : Option String → Bool
  | none => false
  | some s => !s.isEmpty

/-- Python truthiness of an optional integer: `None` and `0` are falsy. -/
def truthyI : Option Int → Bool
  | none => false
  | some i => i != 0

/-- Python truthiness of an optional byte string: `None` and `b""` are falsy. -/
def truthyB : Option (List Nat) → Bool
  | none => false
  | some l => !l.isEmpty

/-- Distinct `logger.error` / `logger.warning` call sites of the script
(`logger.info` calls carry no claim content and are not modelled). -/
inductive LogMsg where
  | fpcalcFailed
  | fpcalcNotFound
  | fpcalcParseFailed
  | acoustidError (message : Option String)
  | acoustidQueryFailed
  | noCoverArtForRelease (releaseId : String)
  | coverHttpError
  | coverFetchFailed
  | downloadFailed
  | coverCheckFailed
  | fingerprintFailed
  | noAcoustidResults
  | noCoverEmbedded
  deriving DecidableEq, Repr

/-- Observable events of a run: the external calls `process_file` and its
helpers make, plus the log records they emit. -/
inductive Event where
  | ffprobeCall
  | fpcalcCall
  | acoustidCall
  | coverArtCall (releaseId : String)
  | downloadCall (url : String)
  | embedCall
  | logError (m : LogMsg)
  | logWarning (m : LogMsg)
  deriving DecidableEq, Repr

/-! ### has_cover_art -/

/-- One entry of ffprobe's `streams` array: only the
`disposition.attached_pic` flag is read (absent counts as falsy). -/
structure StreamInfo where
  attached_pic : Bool
  deriving DecidableEq, Repr

/-- Outcome of the `ffprobe` subprocess plus JSON parse inside
`has_cover_art`: either a parsed `streams` array, or any exception. -/
inductive FfprobeOutcome where
  | ok (streams : List StreamInfo)
  | error
  deriving DecidableEq, Repr

/-- Embedding of `has_cover_art`: true iff some stream has the
`attached_pic` disposition; any exception logs an error and yields false. -/
def has_cover_art : FfprobeOutcome → Bool × List Event
  | .ok streams => (streams.any (·.attached_pic), [])
  | .error => (false, [.logError .coverCheckFailed])

/-! ### run_fpcalc -/

/-- Fields of fpcalc's JSON output that `run_fpcalc` reads: an optional
`fingerprint` string and an optional numeric `duration` (already truncated
to an integer, as `int(...)` does). -/
structure FpcalcJson where
  fingerprint : Option String
  duration : Option Int
  deriving DecidableEq, Repr

/-- Outcome of the `fpcalc` subprocess call: parsed JSON on success, or one
of the three caught exceptions. -/
inductive FpcalcOutcome where
  | ok (data : FpcalcJson)
  | calledProcessError
  | fileNotFound
  | jsonDecodeError
  deriving DecidableEq, Repr

/-- Embedding of `run_fpcalc`: on success returns
`(data.get('fingerprint'), int(data.get('duration', 0)))`; each caught
exception logs a distinct error and returns `(None, None)`. -/
def run_fpcalc : FpcalcOutcome → (Option String × Option Int) × List Event
  | .ok data => ((data.fingerprint, some (data.duration.getD 0)), [])
  | .calledProcessError => ((none, none), [.logError .fpcalcFailed])
  | .fileNotFound => ((none, none), [.logError .fpcalcNotFound])
  | .jsonDecodeError => ((none, none), [.logError .fpcalcParseFailed])

/-! ### lookup_acoustid -/

/-- One release object inside an AcoustID result: only its `id` is read
(absent modelled as `none`; the empty string is equally falsy). -/
structure Release where
  id : Option String
  deriving DecidableEq, Repr

/-- One recording object: its `releases` list (absent = `[]`). -/
structure Recording where
  releases : List Release
  deriving DecidableEq, Repr

/-- One AcoustID result object: its `recordings` list (absent = `[]`). -/
structure AResult where
  recordings : List Recording
  deriving DecidableEq, Repr

/-- Outcome of the AcoustID HTTP request as `lookup_acoustid` sees it: a
parsed body with `status == "ok"`, a parsed body with any other status
(carrying the optional `error.message`), or any transport/parse exception. -/
inductive AcoustidResponse where
  | ok (results : List AResult)
  | errorStatus (message : Option String)
  | transportError
  deriving DecidableEq, Repr

/-- Embedding of `lookup_acoustid`: the `results` list on status "ok",
otherwise an empty list, logging the service-reported error message on a
non-ok status and a generic error on an exception. -/
def lookup_acoustid : AcoustidResponse → List AResult × List Event
  | .ok results => (results, [])
  | .errorStatus message => ([], [.logError (.acoustidError message)])
  | .transportError => ([], [.logError .acoustidQueryFailed])

/-! ### get_cover_art_url -/

/-- One entry of the Cover Art Archive `images` list: the `front` flag
(absent = falsy) and the optional `image` URL field. -/
structure CAAImage where
  front : Bool
  image : Option String
  deriving DecidableEq, Repr

/-- Outcome of the Cover Art Archive HTTP request: a parsed body with its
`images` list, an `HTTPError` with its status code, or any other
exception. -/
inductive CAAResponse where
  | ok (images : List CAAImage)
  | httpError (code : Nat)
  | otherError
  deriving DecidableEq, Repr

/-- Image selection of `get_cover_art_url`: return the `image` field of the
first `front`-flagged entry if any entry is front-flagged, else the `image`
field of the first entry, else `None`. -/
def selectImage (images : List CAAImage) : Option String :=
  match images.find? (·.front) with
  | some img => img.image
  | none =>
    match images with
    | [] => none
    | img :: _ => img.image

/-- Embedding of `get_cover_art_url` for release `releaseId`: selects an
image URL from a successful response; a 404 logs a warning, any other HTTP
error or exception logs an error; all failures return `None`. -/
def get_cover_art_url (releaseId : String) : CAAResponse → Option String × List Event
  | .ok images => (selectImage images, [])
  | .httpError code =>
    if code == 404 then (none, [.logWarning (.noCoverArtForRelease releaseId)])
    else (none, [.logError .coverHttpError])
  | .otherError => (none, [.logError .coverFetchFailed])

/-! ### download_image -/

/-- Outcome of the image download: the raw bytes, or any exception. -/
inductive DownloadOutcome where
  | ok (bytes : List Nat)
  | error
  deriving DecidableEq, Repr

/-- Embedding of `download_image`: the bytes on success, `None` (with an
error log) on any exception. -/
def download_image : DownloadOutcome → Option (List Nat) × List Event
  | .ok bytes => (some bytes, [])
  | .error => (none, [.logError .downloadFailed])

/-! ### embed_cover_art

The mutagen container objects are modelled by `AudioState`; `MutagenFile`
returning `None` for an unsupported format is `Option AudioState = none`.
Only the parts the script touches are modelled: the MP4 `covr` tag entry,
the FLAC picture block list, and the ID3 frame list (APIC frames plus
opaque other frames).  `audio.save()` is the only point where the
persistent file changes; whether it raises is an explicit `saveOk` flag,
and on a raise the file keeps its previous state (the tag library's save
semantics the script relies on). -/

/-- One `MP4Cover` value: raw bytes plus the `imageformat` code
(`MP4Cover.FORMAT_JPEG = 13`, `FORMAT_PNG = 14`). -/
structure MP4CoverItem where
  data : List Nat
  imageformat : Nat
  deriving DecidableEq, Repr

/-- The MP4 tag dictionary, restricted to the `covr` key the script writes
(`none` = key absent). -/
structure MP4Tags where
  covr : Option (List MP4CoverItem)
  deriving DecidableEq, Repr

/-- One FLAC metadata `Picture` block, restricted to the fields the script
sets. -/
structure FLACPicture where
  type : Nat
  mime : String
  data : List Nat
  deriving DecidableEq, Repr

/-- One APIC (attached picture) ID3 frame, with the fields the script
sets. -/
structure APICFrame where
  encoding : Nat
  mime : String
  type : Nat
  desc : String
  data : List Nat
  deriving DecidableEq, Repr

/-- An ID3 frame: an APIC frame or any other frame (opaque). -/
inductive ID3Frame where
  | apic (frame : APICFrame)
  | other (key : Nat)
  deriving DecidableEq, Repr

/-- Whether an ID3 frame is an attached-picture (APIC) frame. -/
def ID3Frame.isAPIC : ID3Frame → Bool
  | .apic _ => true
  | .other _ => false

/-- Tag-container state of the file, one constructor per dispatch branch of
`embed_cover_art`: `MP4` (with `audio.tags` possibly `None`), `FLAC`, or
the generic ID3 fallback (with `audio.tags` possibly `None`). -/
inductive AudioState where
  | mp4 (tags : Option MP4Tags)
  | flac (pictures : List FLACPicture)
  | id3 (tags : Option (List ID3Frame))
  deriving DecidableEq, Repr

/-- The in-memory mutation `embed_cover_art` performs before `save`, per
container branch; `none` means an exception is raised before `save`:
writing `covr` when the MP4 has no tag dictionary (`audio.tags` is `None`),
or `add_tags` on an ID3 container whose tags exist but are empty (falsy, so
the script calls `add_tags`, which raises because tags already exist). -/
def embedStep : AudioState → List Nat → Option AudioState
  | .mp4 none, _ => none
  | .mp4 (some _), img => some (.mp4 (some ⟨some [⟨img, 13⟩]⟩))
  | .flac _, img => some (.flac [⟨3, "image/jpeg", img⟩])
  | .id3 (some []), _ => none
  | .id3 (some frames), img =>
    some (.id3 (some (frames.filter (fun f => !f.isAPIC) ++
      [.apic ⟨3, "image/jpeg", 3, "Cover", img⟩])))
  | .id3 none, img => some (.id3 (some [.apic ⟨3, "image/jpeg", 3, "Cover", img⟩]))

/-- Embedding of `embed_cover_art`: returns the success flag together with
the persistent state of the file after the call.  An unsupported format
(`none`) fails untouched; an exception before or at `save` fails with the
previous state kept; otherwise the mutated state is saved. -/
def embed_cover_art (audio : Option AudioState) (image_data : List Nat)
    (saveOk : Bool) : Bool × Option AudioState :=
  match audio with
  | none => (false, none)
  | some st =>
    match embedStep st image_data with
    | none => (false, some st)
    | some st2 => if saveOk then (true, some st2) else (false, some st)

/-- Uniform view of the attached pictures held by a container state, for
stating the round-trip property: data bytes, MIME type (for MP4 derived
from the `imageformat` code), and picture type / description where the
format has them. -/
structure UPicture where
  data : List Nat
  mime : String
  type : Option Nat
  desc : Option String
  deriving DecidableEq, Repr

/-- MIME type denoted by an MP4 `imageformat` code. -/
def mp4FormatMime (fmt : Nat) : String :=
  if fmt == 13 then "image/jpeg" else "image/png"

/-- The attached pictures of a container state, as uniform views. -/
def picturesOf : AudioState → List UPicture
  | .mp4 none => []
  | .mp4 (some tags) =>
    (tags.covr.getD []).map (fun c => ⟨c.data, mp4FormatMime c.imageformat, none, none⟩)
  | .flac pictures => pictures.map (fun p => ⟨p.data, p.mime, some p.type, none⟩)
  | .id3 none => []
  | .id3 (some frames) =>
    frames.filterMap (fun f =>
      match f with
      | .apic a => some ⟨a.data, a.mime, some a.type, some a.desc⟩
      | .other _ => none)

/-- The single picture a successful embed is expected to leave, per branch:
payload bytes, JPEG MIME, front-cover type 3 where the format has a type
field, description "Cover" in the ID3 branch. -/
def expectedPicture : AudioState → List Nat → UPicture
  | .mp4 _, img => ⟨img, "image/jpeg", none, none⟩
  | .flac _, img => ⟨img, "image/jpeg", some 3, none⟩
  | .id3 _, img => ⟨img, "image/jpeg", some 3, some "Cover"⟩

/-! ### process_file -/

/-- Environment of one `process_file` run: the outcome every external call
would have.  Cover-art lookups are keyed by release id, downloads by URL;
`embedOk` tells whether `embed_cover_art` would succeed on given image
bytes. -/
structure Env where
  ffprobe : FfprobeOutcome
  fpcalc : FpcalcOutcome
  acoustid : AcoustidResponse
  coverArt : String → CAAResponse
  download : String → DownloadOutcome
  embedOk : List Nat → Bool

/-- The innermost loop of `process_file`: try each release of one
recording, skipping releases with a falsy id, and for each remaining
release resolve art, download, and embed, continuing to the next release
when any of the three fails.  Returns the success flag and the events of
the scan. -/
def tryReleases (env : Env) : List Release → Bool × List Event
  | [] => (false, [])
  | rel :: rest =>
    if truthyS rel.id then
      let rid := rel.id.getD ""
      let art := get_cover_art_url rid (env.coverArt rid)
      let ev0 := Event.coverArtCall rid :: art.2
      if truthyS art.1 then
        let url := art.1.getD ""
        let dl := download_image (env.download url)
        let ev1 := ev0 ++ Event.downloadCall url :: dl.2
        if truthyB dl.1 then
          if env.embedOk (dl.1.getD []) then (true, ev1 ++ [Event.embedCall])
          else ((tryReleases env rest).1,
                ev1 ++ Event.embedCall :: (tryReleases env rest).2)
        else ((tryReleases env rest).1, ev1 ++ (tryReleases env rest).2)
      else ((tryReleases env rest).1, ev0 ++ (tryReleases env rest).2)
    else tryReleases env rest

/-- The middle loop of `process_file`: try each recording's releases in
order (a recording with no releases contributes nothing), stopping at the
first success. -/
def tryRecordings (env : Env) : List Recording → Bool × List Event
  | [] => (false, [])
  | rec :: rest =>
    let r := tryReleases env rec.releases
    if r.1 then r
    else ((tryRecordings env rest).1, r.2 ++ (tryRecordings env rest).2)

/-- The outer loop of `process_file`: try each AcoustID result's
recordings in order, stopping at the first success. -/
def tryResults (env : Env) : List AResult → Bool × List Event
  | [] => (false, [])
  | res :: rest =>
    let r := tryRecordings env res.recordings
    if r.1 then r
    else ((tryResults env rest).1, r.2 ++ (tryResults env rest).2)

/-- Embedding of `process_file`: cover check (skip with success if art is
already present), fingerprint (fail if fingerprint or duration is falsy),
AcoustID lookup (fail on an empty result list), then the nested candidate
scan; exhausting all candidates logs a warning and fails. -/
def process_file (env : Env) : Bool × List Event :=
  let hc := has_cover_art env.ffprobe
  let ev0 := Event.ffprobeCall :: hc.2
  if hc.1 then (true, ev0)
  else
    let fp := run_fpcalc env.fpcalc
    let ev1 := ev0 ++ Event.fpcalcCall :: fp.2
    if !(truthyS fp.1.1 && truthyI fp.1.2) then
      (false, ev1 ++ [Event.logError .fingerprintFailed])
    else
      let lk := lookup_acoustid env.acoustid
      let ev2 := ev1 ++ Event.acoustidCall :: lk.2
      if lk.1.isEmpty then (false, ev2 ++ [Event.logError .noAcoustidResults])
      else
        let scan := tryResults env lk.1
        if scan.1 then (true, ev2 ++ scan.2)
        else (false, ev2 ++ scan.2 ++ [Event.logWarning .noCoverEmbedded])

/-! ### Derived notions used in theorem statements -/

/-- The cover-art URL `process_file` would obtain for a release id. -/
def artUrl (env : Env) (rid : String) : Option String :=
  (get_cover_art_url rid (env.coverArt rid)).1

/-- The image bytes `process_file` would obtain for a release id. -/
def fetchedBytes (env : Env) (rid : String) : Option (List Nat) :=
  (download_image (env.download ((artUrl env rid).getD ""))).1

/-- Whether the per-release pipeline (resolve art, download, embed) would
succeed for a release id under the environment. -/
def releaseSucceeds (env : Env) (rid : String) : Bool :=
  truthyS (artUrl env rid) && truthyB (fetchedBytes env rid)
    && env.embedOk ((fetchedBytes env rid).getD [])

/-- The ids of the releases of a list that have a truthy id, in order. -/
def releaseIdsOf (rels : List Release) : List String :=
  rels.filterMap (fun rel => if truthyS rel.id then some (rel.id.getD "") else none)

/-- All candidate release ids of an AcoustID result list, in the nested
iteration order result → recording → release, falsy ids skipped. -/
def releaseIds (results : List AResult) : List String :=
  releaseIdsOf (results.flatMap (fun res => res.recordings.flatMap (·.releases)))

/-- The prefix of a candidate id list a fallback scan attempts: every id up
to and including the first succeeding one, or the whole list if none
succeeds. -/
def attempted (env : Env) : List String → List String
  | [] => []
  | rid :: rest => rid :: (if releaseSucceeds env rid then [] else attempted env rest)

/-- The release ids for which a trace records a cover-art lookup, in
order. -/
def coverCalls (evs : List Event) : List String :=
  evs.filterMap (fun e => match e with | .coverArtCall r => some r | _ => none)

/-! ### Claim theorems -/

/-- Claim C2: for every input file for which the cover-presence check
reports an attached picture, `process_file` reports success and performs no
further pipeline work: its whole trace is the single ffprobe call — no
fingerprint generation, no network lookup, no download, no embedding. -/
theorem claim_C2_skip_short_circuit (env : Env)
    (h : (has_cover_art env.ffprobe).1 = true) :
    process_file env = (true, [Event.ffprobeCall]) ∧
    Event.fpcalcCall ∉ (process_file env).2 ∧
    Event.acoustidCall ∉ (process_file env).2 ∧
    (∀ r, Event.coverArtCall r ∉ (process_file env).2) ∧
    (∀ u, Event.downloadCall u ∉ (process_file env).2) ∧
    Event.embedCall ∉ (process_file env).2 := by
  have hlog : (has_cover_art env.ffprobe).2 = [] := by
    cases hf : env.ffprobe with
    | ok streams => simp [has_cover_art]
    | error => rw [hf] at h; simp [has_cover_art] at h
  have hmain : process_file env = (true, [Event.ffprobeCall]) := by
    simp [process_file, h, hlog]
  refine ⟨hmain, ?_, ?_, ?_, ?_, ?_⟩ <;> simp [hmain]

/-- Witness for C2 at a concrete environment whose ffprobe output contains
an attached-picture stream. -/
theorem claim_C2_witness :
    process_file
      { ffprobe := .ok [⟨true⟩], fpcalc := .fileNotFound,
        acoustid := .transportError, coverArt := fun _ => .otherError,
        download := fun _ => .error, embedOk := fun _ => false }
      = (true, [Event.ffprobeCall]) :=
  (claim_C2_skip_short_circuit _ (by decide)).1

/-- Claim C5: on a successful art-index response, `get_cover_art_url`
returns the URL field of a front-flagged image when one exists; otherwise,
for a non-empty images list, it returns the URL field of the first listed
image; otherwise it signals absence. -/
theorem claim_C5_image_selection (rid : String) (images : List CAAImage) :
    ((∃ i ∈ images, i.front = true) →
      ∃ i ∈ images, i.front = true ∧
        (get_cover_art_url rid (.ok images)).1 = i.image) ∧
    (∀ i rest, images = i :: rest → (∀ j ∈ images, j.front = false) →
      (get_cover_art_url rid (.ok images)).1 = i.image) ∧
    (images = [] → (get_cover_art_url rid (.ok images)).1 = none) := by
  refine ⟨?_, ?_, ?_⟩
  · rintro ⟨i, hi, hfront⟩
    have hsome : (images.find? (·.front)).isSome := by
      rw [List.find?_isSome]
      exact ⟨i, hi, by simpa using hfront⟩
    obtain ⟨j, hj⟩ := Option.isSome_iff_exists.mp hsome
    refine ⟨j, List.mem_of_find?_eq_some hj, by simpa using List.find?_some hj, ?_⟩
    simp [get_cover_art_url, selectImage, hj]
  · rintro i rest rfl hnone
    have hfind : (i :: rest).find? (·.front) = none := by
      rw [List.find?_eq_none]
      intro j hj
      simpa using hnone j hj
    simp [get_cover_art_url, selectImage, hfind]
  · rintro rfl
    simp [get_cover_art_url, selectImage]

/-- Witness for C5: a list whose second entry is the only front-flagged
image, whose URL is selected. -/
theorem claim_C5_witness :
    ∃ i ∈ [(⟨false, some "a"⟩ : CAAImage), ⟨true, some "b"⟩], i.front = true ∧
      (get_cover_art_url "rel" (.ok [⟨false, some "a"⟩, ⟨true, some "b"⟩])).1 = i.image :=
  (claim_C5_image_selection "rel" _).1 ⟨⟨true, some "b"⟩, by simp, rfl⟩

/-- Claim C10: when the first front-flagged image of the list lacks the
`image` URL field, `get_cover_art_url` returns absence immediately, with no
fallback to the other listed images. -/
theorem claim_C10_front_without_url (rid : String) (images : List CAAImage)
    (i : CAAImage) (h1 : images.find? (·.front) = some i)
    (h2 : i.image = none) :
    (get_cover_art_url rid (.ok images)).1 = none := by
  simp [get_cover_art_url, selectImage, h1, h2]

/-- Witness for C10: the front-flagged head has no URL while a later image
does, yet the result is absence. -/
theorem claim_C10_witness :
    (get_cover_art_url "rel"
      (.ok [⟨true, none⟩, ⟨false, some "u"⟩])).1 = none :=
  claim_C10_front_without_url "rel" _ ⟨true, none⟩ (by decide) rfl

/-- Pictures viewed from frames that survived an APIC purge are none. -/
theorem picturesOf_filter_no_apic (frames : List ID3Frame) :
    (frames.filter (fun f => !f.isAPIC)).filterMap (fun f =>
      match f with
      | .apic a => some (⟨a.data, a.mime, some a.type, some a.desc⟩ : UPicture)
      | .other _ => none) = [] := by
  rw [List.filterMap_eq_nil_iff]
  intro f hf
  have := List.of_mem_filter hf
  cases f with
  | apic a => simp [ID3Frame.isAPIC] at this
  | other k => rfl

/-- Claim C7: a successful `embed_cover_art` on any of the three container
variants leaves exactly one attached picture, whose bytes are the payload
and whose MIME is "image/jpeg", with front-cover type 3 in the FLAC and ID3
branches and description "Cover" in the ID3 branch; all previously embedded
pictures are removed. -/
theorem claim_C7_embed_roundtrip (st : AudioState) (img : List Nat)
    (saveOk : Bool) (h : (embed_cover_art (some st) img saveOk).1 = true) :
    ∃ st2, (embed_cover_art (some st) img saveOk).2 = some st2 ∧
      picturesOf st2 = [expectedPicture st img] := by
  cases hstep : embedStep st img with
  | none => simp [embed_cover_art, hstep] at h
  | some st2 =>
    cases hs : saveOk with
    | false => rw [hs] at h; simp [embed_cover_art, hstep] at h
    | true =>
      refine ⟨st2, by simp [embed_cover_art, hstep], ?_⟩
      cases st with
      | mp4 tags =>
        cases tags with
        | none => simp [embedStep] at hstep
        | some t =>
          simp only [embedStep, Option.some.injEq] at hstep
          subst hstep
          simp [picturesOf, expectedPicture, mp4FormatMime]
      | flac pics =>
        simp only [embedStep, Option.some.injEq] at hstep
        subst hstep
        simp [picturesOf, expectedPicture]
      | id3 tags =>
        cases tags with
        | none =>
          simp only [embedStep, Option.some.injEq] at hstep
          subst hstep
          simp [picturesOf, expectedPicture]
        | some frames =>
          cases frames with
          | nil => simp [embedStep] at hstep
          | cons f fs =>
            simp only [embedStep, Option.some.injEq] at hstep
            subst hstep
            simp [picturesOf, expectedPicture, picturesOf_filter_no_apic]

/-- Witness for C7: embedding into a FLAC container that already holds an
unrelated picture leaves exactly the expected single front-cover JPEG. -/
theorem claim_C7_witness :
    ∃ st2,
      (embed_cover_art (some (.flac [⟨0, "x", [9]⟩])) [1, 2] true).2 = some st2 ∧
      picturesOf st2 = [expectedPicture (.flac [⟨0, "x", [9]⟩]) [1, 2]] :=
  claim_C7_embed_roundtrip (.flac [⟨0, "x", [9]⟩]) [1, 2] true (by decide)

/-- Claim C8: an unsupported format (no tag container recognized) fails
with the file untouched, and more generally every failing
`embed_cover_art` call leaves the file's persistent state exactly as it
was. -/
theorem claim_C8_embed_frame (audio : Option AudioState) (img : List Nat)
    (saveOk : Bool) :
    embed_cover_art none img saveOk = (false, none) ∧
    ((embed_cover_art audio img saveOk).1 = false →
      (embed_cover_art audio img saveOk).2 = audio) := by
  refine ⟨rfl, ?_⟩
  intro h
  cases audio with
  | none => rfl
  | some st =>
    cases hstep : embedStep st img with
    | none => simp [embed_cover_art, hstep]
    | some st2 =>
      cases hs : saveOk with
      | false => simp [embed_cover_art, hstep, hs]
      | true => rw [hs] at h; simp [embed_cover_art, hstep] at h

/-- Witness for C8: a save failure on an MP4 container leaves its existing
cover untouched. -/
theorem claim_C8_witness :
    (embed_cover_art (some (.mp4 (some ⟨some [⟨[7], 14⟩]⟩))) [1] false).2
      = some (.mp4 (some ⟨some [⟨[7], 14⟩]⟩)) :=
  (claim_C8_embed_frame (some (.mp4 (some ⟨some [⟨[7], 14⟩]⟩))) [1] false).2 (by decide)

/-- Shape of a run that fails at the fingerprint check: the cover check
found nothing, the fingerprint or the duration is falsy, and the run stops
with an error log, its trace ending at the fpcalc call. -/
theorem process_file_fp_fail (env : Env)
    (hcov : (has_cover_art env.ffprobe).1 = false)
    (hfp : truthyS (run_fpcalc env.fpcalc).1.1 = false ∨
           truthyI (run_fpcalc env.fpcalc).1.2 = false) :
    process_file env =
      (false, Event.ffprobeCall :: (has_cover_art env.ffprobe).2 ++
        Event.fpcalcCall :: (run_fpcalc env.fpcalc).2 ++
        [Event.logError .fingerprintFailed]) := by
  have hcond : (truthyS (run_fpcalc env.fpcalc).1.1 &&
      truthyI (run_fpcalc env.fpcalc).1.2) = false := by
    rcases hfp with h | h <;> simp [h]
  simp [process_file, hcov, hcond]

/-- The cover-check log list is empty or the single check-failure error. -/
theorem has_cover_art_logs (o : FfprobeOutcome) :
    (has_cover_art o).2 = [] ∨
    (has_cover_art o).2 = [Event.logError .coverCheckFailed] := by
  cases o <;> simp [has_cover_art]

/-- Claim C3: when the fingerprinting subprocess fails (exit failure,
missing executable, or malformed output), `run_fpcalc` returns the failure
value `(None, None)`, and — when the file had no cover — `process_file`
reports failure with a trace containing no AcoustID lookup, no cover-art
lookup and no download. -/
theorem claim_C3_fpcalc_failure_no_network (env : Env)
    (h : env.fpcalc = .calledProcessError ∨ env.fpcalc = .fileNotFound ∨
         env.fpcalc = .jsonDecodeError) :
    (run_fpcalc env.fpcalc).1 = (none, none) ∧
    ((has_cover_art env.ffprobe).1 = false →
      (process_file env).1 = false ∧
      Event.acoustidCall ∉ (process_file env).2 ∧
      (∀ r, Event.coverArtCall r ∉ (process_file env).2) ∧
      (∀ u, Event.downloadCall u ∉ (process_file env).2)) := by
  have hval : (run_fpcalc env.fpcalc).1 = (none, none) := by
    rcases h with h | h | h <;> simp [h, run_fpcalc]
  refine ⟨hval, fun hcov => ?_⟩
  have htr := process_file_fp_fail env hcov (Or.inl (by simp [hval, truthyS]))
  have hfpl : (run_fpcalc env.fpcalc).2 = [Event.logError .fpcalcFailed] ∨
      (run_fpcalc env.fpcalc).2 = [Event.logError .fpcalcNotFound] ∨
      (run_fpcalc env.fpcalc).2 = [Event.logError .fpcalcParseFailed] := by
    rcases h with h | h | h <;> simp [h, run_fpcalc]
  rw [htr]
  rcases has_cover_art_logs env.ffprobe with h1 | h1 <;>
    rcases hfpl with h2 | h2 | h2 <;> simp [h1, h2]

/-- Witness for C3 at a concrete environment whose fpcalc executable is
missing. -/
theorem claim_C3_witness :
    (run_fpcalc FpcalcOutcome.fileNotFound).1 = (none, none) ∧
    (process_file
      { ffprobe := .ok [⟨false⟩], fpcalc := .fileNotFound,
        acoustid := .ok [], coverArt := fun _ => .otherError,
        download := fun _ => .error, embedOk := fun _ => false }).1 = false := by
  have h := claim_C3_fpcalc_failure_no_network
    { ffprobe := .ok [⟨false⟩], fpcalc := .fileNotFound,
      acoustid := .ok [], coverArt := fun _ => .otherError,
      download := fun _ => .error, embedOk := fun _ => false }
    (Or.inr (Or.inl rfl))
  exact ⟨h.1, (h.2 (by decide)).1⟩

/-- Shape of a run that fails because the AcoustID result list is empty:
the trace ends at the lookup with its logs and a final error. -/
theorem process_file_no_results (env : Env)
    (hcov : (has_cover_art env.ffprobe).1 = false)
    (hf : truthyS (run_fpcalc env.fpcalc).1.1 = true)
    (hd : truthyI (run_fpcalc env.fpcalc).1.2 = true)
    (hres : (lookup_acoustid env.acoustid).1 = []) :
    process_file env =
      (false, Event.ffprobeCall :: (has_cover_art env.ffprobe).2 ++
        Event.fpcalcCall :: (run_fpcalc env.fpcalc).2 ++
        Event.acoustidCall :: (lookup_acoustid env.acoustid).2 ++
        [Event.logError .noAcoustidResults]) := by
  simp [process_file, hcov, hf, hd, hres]

/-- Claim C4: on a lookup response whose status is not "ok",
`lookup_acoustid` returns an empty result list and logs the
service-reported error message, and a run that reaches the lookup
consequently reports overall failure (with that log in its trace). -/
theorem claim_C4_acoustid_error_status (env : Env) (msg : Option String)
    (h : env.acoustid = .errorStatus msg) :
    lookup_acoustid env.acoustid = ([], [Event.logError (.acoustidError msg)]) ∧
    ((has_cover_art env.ffprobe).1 = false →
      truthyS (run_fpcalc env.fpcalc).1.1 = true →
      truthyI (run_fpcalc env.fpcalc).1.2 = true →
      (process_file env).1 = false ∧
      Event.logError (.acoustidError msg) ∈ (process_file env).2) := by
  have hlk : lookup_acoustid env.acoustid =
      ([], [Event.logError (.acoustidError msg)]) := by
    simp [h, lookup_acoustid]
  refine ⟨hlk, fun hcov hf hd => ?_⟩
  have htr := process_file_no_results env hcov hf hd (by simp [hlk])
  rw [htr, hlk]
  simp

/-- Witness for C4 at a concrete environment whose lookup reports a
non-"ok" status with message "invalid fingerprint". -/
theorem claim_C4_witness :
    lookup_acoustid (AcoustidResponse.errorStatus (some "invalid fingerprint")) =
      ([], [Event.logError (.acoustidError (some "invalid fingerprint"))]) ∧
    (process_file
      { ffprobe := .ok [⟨false⟩], fpcalc := .ok ⟨some "fp", some 100⟩,
        acoustid := .errorStatus (some "invalid fingerprint"),
        coverArt := fun _ => .otherError, download := fun _ => .error,
        embedOk := fun _ => false }).1 = false := by
  have h := claim_C4_acoustid_error_status
    { ffprobe := .ok [⟨false⟩], fpcalc := .ok ⟨some "fp", some 100⟩,
      acoustid := .errorStatus (some "invalid fingerprint"),
      coverArt := fun _ => .otherError, download := fun _ => .error,
      embedOk := fun _ => false } (some "invalid fingerprint") rfl
  exact ⟨h.1, (h.2 (by decide) (by decide) (by decide)).1⟩

/-- Claim C6: an HTTP 404 from the art index is treated as a normal no-art
outcome — a warning-level log and absence — while any other HTTP error is
logged at error level; and on a 404 the candidate scan of `process_file`
moves on to the next release. -/
theorem claim_C6_http_404_no_art (env : Env) (rid : String) (rel : Release)
    (rest : List Release) (code : Nat) :
    get_cover_art_url rid (.httpError 404) =
      (none, [Event.logWarning (.noCoverArtForRelease rid)]) ∧
    (code ≠ 404 → get_cover_art_url rid (.httpError code) =
      (none, [Event.logError .coverHttpError])) ∧
    (rel.id = some rid → truthyS rel.id = true →
      env.coverArt rid = .httpError 404 →
      tryReleases env (rel :: rest) =
        ((tryReleases env rest).1,
         Event.coverArtCall rid ::
           Event.logWarning (.noCoverArtForRelease rid) ::
           (tryReleases env rest).2)) := by
  refine ⟨by simp [get_cover_art_url], ?_, ?_⟩
  · intro hne
    have hb : (code == 404) = false := by simpa using hne
    simp [get_cover_art_url, hb]
  · intro hid htr hca
    rw [hid] at htr
    have hne : rid.isEmpty = false := by simpa [truthyS] using htr
    simp [tryReleases, hid, hca, get_cover_art_url, truthyS, hne]

/-- Witness for C6: a non-404 HTTP error logs at error level, and on a 404
the scan continues past the first release (here to an empty remainder). -/
theorem claim_C6_witness :
    get_cover_art_url "r1" (.httpError 500) =
      (none, [Event.logError .coverHttpError]) ∧
    tryReleases
      { ffprobe := .ok [], fpcalc := .jsonDecodeError, acoustid := .ok [],
        coverArt := fun _ => .httpError 404, download := fun _ => .error,
        embedOk := fun _ => false } [⟨some "r1"⟩] =
      (false, [Event.coverArtCall "r1",
               Event.logWarning (.noCoverArtForRelease "r1")]) := by
  have h := claim_C6_http_404_no_art
    { ffprobe := .ok [], fpcalc := .jsonDecodeError, acoustid := .ok [],
      coverArt := fun _ => .httpError 404, download := fun _ => .error,
      embedOk := fun _ => false } "r1" ⟨some "r1"⟩ [] 500
  refine ⟨h.2.1 (by decide), ?_⟩
  have h3 := h.2.2 rfl (by decide) rfl
  simpa [tryReleases] using h3

/-- Claim C9: when the fpcalc output parses but its duration is zero or
missing, the run treats fingerprinting as failed — even with a non-empty
fingerprint string — and reports overall failure without any network
call. -/
theorem claim_C9_zero_duration (env : Env) (j : FpcalcJson)
    (h1 : env.fpcalc = .ok j) (h2 : j.duration.getD 0 = 0)
    (h3 : (has_cover_art env.ffprobe).1 = false) :
    (process_file env).1 = false ∧
    Event.acoustidCall ∉ (process_file env).2 ∧
    (∀ r, Event.coverArtCall r ∉ (process_file env).2) ∧
    (∀ u, Event.downloadCall u ∉ (process_file env).2) := by
  have hdur : truthyI (run_fpcalc env.fpcalc).1.2 = false := by
    simp [h1, run_fpcalc, h2, truthyI]
  have htr := process_file_fp_fail env h3 (Or.inr hdur)
  have hfpl : (run_fpcalc env.fpcalc).2 = [] := by simp [h1, run_fpcalc]
  rw [htr]
  rcases has_cover_art_logs env.ffprobe with hl | hl <;> simp [hl, hfpl]

/-- Witness for C9: a non-empty fingerprint with a missing duration field
still fails the run. -/
theorem claim_C9_witness :
    (process_file
      { ffprobe := .ok [⟨false⟩], fpcalc := .ok ⟨some "abc", none⟩,
        acoustid := .ok [], coverArt := fun _ => .otherError,
        download := fun _ => .error, embedOk := fun _ => false }).1 = false :=
  (claim_C9_zero_duration
    { ffprobe := .ok [⟨false⟩], fpcalc := .ok ⟨some "abc", none⟩,
      acoustid := .ok [], coverArt := fun _ => .otherError,
      download := fun _ => .error, embedOk := fun _ => false }
    ⟨some "abc", none⟩ rfl rfl (by decide)).1

/-! ### C1: the candidate fallback scan -/

theorem coverCalls_nil : coverCalls [] = [] := rfl

theorem coverCalls_append (a b : List Event) :
    coverCalls (a ++ b) = coverCalls a ++ coverCalls b :=
  List.filterMap_append a b _

theorem coverCalls_cons_cover (r : String) (evs : List Event) :
    coverCalls (Event.coverArtCall r :: evs) = r :: coverCalls evs := rfl

theorem coverCalls_cons_ffprobe (evs : List Event) :
    coverCalls (Event.ffprobeCall :: evs) = coverCalls evs := rfl

theorem coverCalls_cons_fpcalc (evs : List Event) :
    coverCalls (Event.fpcalcCall :: evs) = coverCalls evs := rfl

theorem coverCalls_cons_acoustid (evs : List Event) :
    coverCalls (Event.acoustidCall :: evs) = coverCalls evs := rfl

theorem coverCalls_cons_download (u : String) (evs : List Event) :
    coverCalls (Event.downloadCall u :: evs) = coverCalls evs := rfl

theorem coverCalls_cons_embed (evs : List Event) :
    coverCalls (Event.embedCall :: evs) = coverCalls evs := rfl

theorem coverCalls_cons_logError (m : LogMsg) (evs : List Event) :
    coverCalls (Event.logError m :: evs) = coverCalls evs := rfl

theorem coverCalls_cons_logWarning (m : LogMsg) (evs : List Event) :
    coverCalls (Event.logWarning m :: evs) = coverCalls evs := rfl

/-- The logs of a cover-art lookup record no cover-art call of their own. -/
theorem coverCalls_art_logs (rid : String) (resp : CAAResponse) :
    coverCalls (get_cover_art_url rid resp).2 = [] := by
  cases resp with
  | ok images => rfl
  | httpError c =>
    by_cases h : (c == 404) = true <;> simp [get_cover_art_url, h] <;> rfl
  | otherError => rfl

theorem coverCalls_download_logs (o : DownloadOutcome) :
    coverCalls (download_image o).2 = [] := by cases o <;> rfl

theorem coverCalls_hasCover_logs (o : FfprobeOutcome) :
    coverCalls (has_cover_art o).2 = [] := by cases o <;> rfl

theorem coverCalls_fpcalc_logs (o : FpcalcOutcome) :
    coverCalls (run_fpcalc o).2 = [] := by cases o <;> rfl

theorem coverCalls_lookup_logs (r : AcoustidResponse) :
    coverCalls (lookup_acoustid r).2 = [] := by cases r <;> rfl

theorem releaseIdsOf_append (a b : List Release) :
    releaseIdsOf (a ++ b) = releaseIdsOf a ++ releaseIdsOf b :=
  List.filterMap_append a b _

/-- Splitting an attempted prefix over an append: the scan enters the
second part only if nothing in the first part succeeds. -/
theorem attempted_append (env : Env) (a b : List String) :
    attempted env (a ++ b) =
      if a.any (releaseSucceeds env) then attempted env a
      else attempted env a ++ attempted env b := by
  induction a with
  | nil => simp [attempted]
  | cons r rs ih =>
    by_cases hr : releaseSucceeds env r
    · simp [attempted, hr]
    · by_cases hrs : rs.any (releaseSucceeds env) <;>
        simp [attempted, hr, hrs, ih]

/-- Specification of the innermost loop: its success flag is whether some
truthy-id release succeeds, and the cover-art lookups it performs are
exactly the attempted prefix of the truthy ids, in order. -/
theorem tryReleases_spec (env : Env) (rels : List Release) :
    (tryReleases env rels).1 = (releaseIdsOf rels).any (releaseSucceeds env) ∧
    coverCalls (tryReleases env rels).2 = attempted env (releaseIdsOf rels) := by
  induction rels with
  | nil => exact ⟨rfl, rfl⟩
  | cons rel rest ih =>
    obtain ⟨oid⟩ := rel
    cases oid with
    | none => simpa [tryReleases, truthyS, releaseIdsOf] using ih
    | some s =>
      by_cases hs : s.isEmpty
      · simpa [tryReleases, truthyS, hs, releaseIdsOf] using ih
      · have htid : truthyS (some s) = true := by simp [truthyS, hs]
        have hid2 : releaseIdsOf (⟨some s⟩ :: rest) = s :: releaseIdsOf rest := by
          simp [releaseIdsOf, truthyS, hs]
        by_cases hart : truthyS (get_cover_art_url s (env.coverArt s)).1
        · by_cases hdl : truthyB (download_image
              (env.download ((get_cover_art_url s (env.coverArt s)).1.getD ""))).1
          · by_cases hemb : env.embedOk ((download_image
                (env.download ((get_cover_art_url s (env.coverArt s)).1.getD ""))).1.getD [])
            · -- Full success on this release.
              have hsucc : releaseSucceeds env s = true := by
                simp [releaseSucceeds, artUrl, fetchedBytes, hart, hdl, hemb]
              refine ⟨?_, ?_⟩ <;>
                simp [tryReleases, htid, hid2, hart, hdl, hemb, hsucc,
                  attempted, coverCalls_append, coverCalls_cons_cover,
                  coverCalls_cons_download, coverCalls_cons_embed,
                  coverCalls_art_logs, coverCalls_download_logs, coverCalls_nil]
            · -- Embed fails: continue with the rest.
              have hsucc : releaseSucceeds env s = false := by
                simp [releaseSucceeds, artUrl, fetchedBytes, hemb]
              refine ⟨?_, ?_⟩ <;>
                simp [tryReleases, htid, hid2, hart, hdl, hemb, hsucc,
                  attempted, coverCalls_append, coverCalls_cons_cover,
                  coverCalls_cons_download, coverCalls_cons_embed,
                  coverCalls_art_logs, coverCalls_download_logs, coverCalls_nil,
                  ih.1, ih.2]
          · -- Download fails: continue with the rest.
            have hsucc : releaseSucceeds env s = false := by
              simp [releaseSucceeds, artUrl, fetchedBytes, hdl]
            refine ⟨?_, ?_⟩ <;>
              simp [tryReleases, htid, hid2, hart, hdl, hsucc,
                attempted, coverCalls_append, coverCalls_cons_cover,
                coverCalls_cons_download,
                coverCalls_art_logs, coverCalls_download_logs, coverCalls_nil,
                ih.1, ih.2]
        · -- Art resolution fails: continue with the rest.
          have hsucc : releaseSucceeds env s = false := by
            simp [releaseSucceeds, artUrl, hart]
          refine ⟨?_, ?_⟩ <;>
            simp [tryReleases, htid, hid2, hart, hsucc,
              attempted, coverCalls_append, coverCalls_cons_cover,
              coverCalls_art_logs, coverCalls_nil, ih.1, ih.2]

/-- Specification of the middle loop over recordings. -/
theorem tryRecordings_spec (env : Env) (recs : List Recording) :
    (tryRecordings env recs).1 =
      (releaseIdsOf (recs.flatMap (·.releases))).any (releaseSucceeds env) ∧
    coverCalls (tryRecordings env recs).2 =
      attempted env (releaseIdsOf (recs.flatMap (·.releases))) := by
  induction recs with
  | nil => exact ⟨rfl, rfl⟩
  | cons rec rest ih =>
    obtain ⟨h1, h2⟩ := tryReleases_spec env rec.releases
    have hsplit : releaseIdsOf ((rec :: rest).flatMap (·.releases)) =
        releaseIdsOf rec.releases ++ releaseIdsOf (rest.flatMap (·.releases)) := by
      simp [releaseIdsOf_append]
    by_cases hr : (tryReleases env rec.releases).1
    · have htr : tryRecordings env (rec :: rest) = tryReleases env rec.releases := by
        simp [tryRecordings, hr]
      have hany : (releaseIdsOf rec.releases).any (releaseSucceeds env) = true := by
        rw [← h1]; exact hr
      refine ⟨?_, ?_⟩
      · rw [htr, hsplit, List.any_append, hany, Bool.true_or]; exact hr
      · rw [htr, hsplit, attempted_append, if_pos hany]; exact h2
    · have hfalse : (tryReleases env rec.releases).1 = false :=
        Bool.eq_false_iff.mpr hr
      have hany : (releaseIdsOf rec.releases).any (releaseSucceeds env) = false := by
        rw [← h1]; exact hfalse
      have hne : ¬((releaseIdsOf rec.releases).any (releaseSucceeds env) = true) := by
        simp [hany]
      have htr : tryRecordings env (rec :: rest) =
          ((tryRecordings env rest).1,
           (tryReleases env rec.releases).2 ++ (tryRecordings env rest).2) := by
        simp [tryRecordings, hr]
      refine ⟨?_, ?_⟩
      · rw [htr]; dsimp only
        rw [hsplit, List.any_append, hany, Bool.false_or]; exact ih.1
      · rw [htr]; dsimp only
        rw [coverCalls_append, h2, ih.2, hsplit, attempted_append, if_neg hne]

/-- Specification of the outer loop over AcoustID results. -/
theorem tryResults_spec (env : Env) (results : List AResult) :
    (tryResults env results).1 =
      (releaseIds results).any (releaseSucceeds env) ∧
    coverCalls (tryResults env results).2 =
      attempted env (releaseIds results) := by
  induction results with
  | nil => exact ⟨rfl, rfl⟩
  | cons res rest ih =>
    obtain ⟨h1, h2⟩ := tryRecordings_spec env res.recordings
    have hsplit : releaseIds (res :: rest) =
        releaseIdsOf (res.recordings.flatMap (·.releases)) ++ releaseIds rest := by
      simp [releaseIds, releaseIdsOf_append]
    by_cases hr : (tryRecordings env res.recordings).1
    · have htr : tryResults env (res :: rest) = tryRecordings env res.recordings := by
        simp [tryResults, hr]
      have hany : (releaseIdsOf (res.recordings.flatMap (·.releases))).any
          (releaseSucceeds env) = true := by
        rw [← h1]; exact hr
      refine ⟨?_, ?_⟩
      · rw [htr, hsplit, List.any_append, hany, Bool.true_or]; exact hr
      · rw [htr, hsplit, attempted_append, if_pos hany]; exact h2
    · have hfalse : (tryRecordings env res.recordings).1 = false :=
        Bool.eq_false_iff.mpr hr
      have hany : (releaseIdsOf (res.recordings.flatMap (·.releases))).any
          (releaseSucceeds env) = false := by
        rw [← h1]; exact hfalse
      have hne : ¬((releaseIdsOf (res.recordings.flatMap (·.releases))).any
          (releaseSucceeds env) = true) := by
        simp [hany]
      have htr : tryResults env (res :: rest) =
          ((tryResults env rest).1,
           (tryRecordings env res.recordings).2 ++ (tryResults env rest).2) := by
        simp [tryResults, hr]
      refine ⟨?_, ?_⟩
      · rw [htr]; dsimp only
        rw [hsplit, List.any_append, hany, Bool.false_or]; exact ih.1
      · rw [htr]; dsimp only
        rw [coverCalls_append, h2, ih.2, hsplit, attempted_append, if_neg hne]

/-- Claim C1: a run that reaches the candidate scan iterates the lookup
candidates in nested order (result → recording → release), skips a release
whenever art resolution, download, or embedding fails, succeeds exactly
when some candidate's embed succeeds, and its cover-art lookups are exactly
the candidates up to and including the first successful one (all of them
when none succeeds, in which case it fails). -/
theorem claim_C1_candidate_fallback (env : Env)
    (hcov : (has_cover_art env.ffprobe).1 = false)
    (hf : truthyS (run_fpcalc env.fpcalc).1.1 = true)
    (hd : truthyI (run_fpcalc env.fpcalc).1.2 = true)
    (hres : (lookup_acoustid env.acoustid).1 ≠ []) :
    (process_file env).1 =
      (releaseIds (lookup_acoustid env.acoustid).1).any (releaseSucceeds env) ∧
    coverCalls (process_file env).2 =
      attempted env (releaseIds (lookup_acoustid env.acoustid).1) := by
  obtain ⟨h1, h2⟩ := tryResults_spec env (lookup_acoustid env.acoustid).1
  have hempty : (lookup_acoustid env.acoustid).1.isEmpty = false := by
    simpa [List.isEmpty_iff] using hres
  by_cases hscan : (tryResults env (lookup_acoustid env.acoustid).1).1
  · refine ⟨?_, ?_⟩ <;>
      simp [process_file, hcov, hf, hd, hempty, hscan, ← h1, h2,
        coverCalls_append, coverCalls_cons_ffprobe, coverCalls_cons_fpcalc,
        coverCalls_cons_acoustid, coverCalls_hasCover_logs,
        coverCalls_fpcalc_logs, coverCalls_lookup_logs]
  · refine ⟨?_, ?_⟩ <;>
      simp [process_file, hcov, hf, hd, hempty, hscan, ← h1, h2,
        coverCalls_append, coverCalls_cons_ffprobe, coverCalls_cons_fpcalc,
        coverCalls_cons_acoustid, coverCalls_hasCover_logs,
        coverCalls_fpcalc_logs, coverCalls_lookup_logs,
        coverCalls_cons_logWarning, coverCalls_nil]

/-- Concrete environment exercising the fallback: two candidate releases,
the first without art (404), the second with a downloadable front cover
that embeds successfully. -/
def envC1 : Env where
  ffprobe := .ok [⟨false⟩]
  fpcalc := .ok ⟨some "fp", some 100⟩
  acoustid := .ok [⟨[⟨[⟨some "r1"⟩, ⟨none⟩]⟩]⟩, ⟨[⟨[⟨some "r2"⟩]⟩]⟩]
  coverArt := fun r => if r == "r2" then .ok [⟨true, some "u"⟩] else .httpError 404
  download := fun u => if u == "u" then .ok [7] else .error
  embedOk := fun b => b == [7]

/-- Witness for C1 at `envC1`: the run succeeds (some candidate embeds) and
its cover-art lookups are the attempted prefix of the candidate ids. -/
theorem claim_C1_witness :
    (process_file envC1).1 =
      (releaseIds (lookup_acoustid envC1.acoustid).1).any (releaseSucceeds envC1) ∧
    coverCalls (process_file envC1).2 =
      attempted envC1 (releaseIds (lookup_acoustid envC1.acoustid).1) :=
  claim_C1_candidate_fallback envC1 (by decide) (by decide) (by decide)
    (by decide)

end ACA
